import Mathlib

/-!
Verification of the loot personal-finance library (loot/loot.py).

The embedding works over exact rationals (Python floats are modelled as ℚ):
tax bracket tables are ordered association lists of (threshold, rate) pairs
(Python dicts preserve insertion order), amortization columns are lists of ℚ,
and calendar dates are (year, month, day) triples compared lexicographically,
exactly as Python datetime.date compares.  Fallible operations (list index
out of range, dict key lookup failure) return Except values.
-/

namespace Loot

/-- Python round-half-to-even of a rational to the nearest integer, the
rounding used by the builtin round() and by pandas DataFrame.round. -/
def rhe (x : ℚ) : ℤ :=
  let n := ⌊x⌋
  let f := x - n
  if f < 1/2 then n
  else if 1/2 < f then n + 1
  else if n % 2 = 0 then n else n + 1

/-- round(x, 2): round to 2 decimal places, half to even. -/
def round2 (x : ℚ) : ℚ := (rhe (100 * x) : ℚ) / 100

/-- Runtime failures the Python code can actually raise: list index out of
range, and a missing dictionary key. -/
inductive Err
  | indexError
  | keyError
deriving DecidableEq, Repr

/-- The body of the loop in itax (loot.py lines 168-175).  The Python loop
walks the index n over brackets = list(table.keys()); at index n it reads
brackets[n+1] before anything else, so reaching the last bracket without
having broken out raises IndexError.  Structurally on the association list:
an empty remainder means the loop finished all iterations, a one-element
remainder is the last index where brackets[n+1] is read out of range. -/
def itaxGo (tinc : ℚ) (tax : ℚ) : List (ℚ × ℚ) → Except Err ℚ
  | [] => Except.ok (round2 tax)
  | [_] => Except.error Err.indexError
  | (t, r) :: (t', r') :: rest =>
      if t' < tinc then itaxGo tinc (tax + (t' - t) * r) ((t', r') :: rest)
      else Except.ok (round2 (tax + (tinc - t) * r))

/-- itax(tinc, table) (loot.py lines 152-176): progressive bracket income
tax over an ordered table of (lower threshold, marginal rate) pairs. -/
def itax (tinc : ℚ) (table : List (ℚ × ℚ)) : Except Err ℚ :=
  itaxGo tinc 0 table

/-- Modelled from the spec: the piecewise marginal sum described in the
BracketTax contract - for each bracket the clamped amount
min(income, next threshold) - this threshold times the bracket rate,
stopping once income falls within a bracket; the final bracket has no
upper bound. -/
def marginalTaxSpec (tinc : ℚ) : List (ℚ × ℚ) → ℚ
  | [] => 0
  | [(t, r)] => (tinc - t) * r
  | (t, r) :: (t', r') :: rest =>
      if tinc ≤ t' then (tinc - t) * r
      else (t' - t) * r + marginalTaxSpec tinc ((t', r') :: rest)

/-- pmt(rate, nper, prin) (loot.py lines 35-55 via numpy_financial): level
monthly payment at monthly rate rate/12; numpy_financial special-cases a
zero rate as prin/nper. -/
def pmt (rate : ℚ) (nper : ℕ) (prin : ℚ) : ℚ :=
  let r := rate / 12
  if r = 0 then prin / nper
  else prin * r * (1 + r) ^ nper / ((1 + r) ^ nper - 1)

/-- Remaining loan balance after k monthly payments, the quantity
numpy_financial computes internally for ipmt/ppmt: balance 0 is the
principal and each month multiplies by (1 + rate/12) and subtracts the
level payment. -/
def bal (rate : ℚ) (nper : ℕ) (prin : ℚ) : ℕ → ℚ
  | 0 => prin
  | k + 1 => bal rate nper prin k * (1 + rate / 12) - pmt rate nper prin

/-- ipmt(rate, per, nper, prin) (loot.py lines 80-101): interest portion of
payment number k, i.e. the previous balance times the monthly rate. -/
def ipmtRaw (rate : ℚ) (nper : ℕ) (prin : ℚ) (k : ℕ) : ℚ :=
  bal rate nper prin (k - 1) * (rate / 12)

/-- ppmt(rate, per, nper, prin) (loot.py lines 57-78): principal portion of
payment number k, i.e. payment minus interest portion. -/
def ppmtRaw (rate : ℚ) (nper : ℕ) (prin : ℚ) (k : ℕ) : ℚ :=
  pmt rate nper prin - ipmtRaw rate nper prin k

/-- The Principal column of the full-precision frame built by ldf
(loot.py lines 127-149), before df.round is applied. -/
def principalColRaw (rate : ℚ) (nper : ℕ) (prin : ℚ) : List ℚ :=
  (List.range nper).map fun k => ppmtRaw rate nper prin (k + 1)

/-- The Principal column of ldf after df.round(2). -/
def principalCol (rate : ℚ) (nper : ℕ) (prin : ℚ) : List ℚ :=
  (principalColRaw rate nper prin).map round2

/-- The Interest column of ldf after df.round(2). -/
def interestCol (rate : ℚ) (nper : ℕ) (prin : ℚ) : List ℚ :=
  (List.range nper).map fun k => round2 (ipmtRaw rate nper prin (k + 1))

/-- The Balance column of ldf after df.round(2): the code sets
Balance = prin - Principal.cumsum() from the still-unrounded Principal
column and rounds the whole frame once at the end. -/
def balanceCol (rate : ℚ) (nper : ℕ) (prin : ℚ) : List ℚ :=
  (List.range nper).map fun k =>
    round2 (prin - ((List.range (k + 1)).map fun j => ppmtRaw rate nper prin (j + 1)).sum)

/-- Inner loop of the 12-row chunking in dedmint (loot.py lines 228-230 and
_chunker at 238-239): walk the Interest column keeping a countdown of slots
left in the current chunk and the running chunk sum; each completed chunk
contributes its sum, rounded to 2 decimals by the final df.round. -/
def chunkSumsGo : List ℚ → ℕ → ℚ → List ℚ
  | [], _, acc => [round2 acc]
  | x :: xs, c, acc =>
      if c = 0 then round2 acc :: chunkSumsGo xs 11 x
      else chunkSumsGo xs (c - 1) (acc + x)

/-- Yearly sums of a column in consecutive 12-element chunks, the last chunk
possibly shorter, each sum rounded to 2 decimals. -/
def chunkSums (l : List ℚ) : List ℚ :=
  match l with
  | [] => []
  | x :: xs => chunkSumsGo xs 11 x

/-- dedmint(rate, nper, prin) (loot.py lines 223-235): caps the principal
at 750000, regenerates the schedule at the capped principal and sums the
rounded Interest column in 12-month chunks, rounding each yearly sum. -/
def dedmint (rate : ℚ) (nper : ℕ) (prin : ℚ) : List ℚ :=
  let p := if prin > 750000 then 750000 else prin
  chunkSums (interestCol rate nper p)

/-- A calendar date as Python datetime.date carries it. -/
structure Date where
  year : ℤ
  month : ℕ
  day : ℕ
deriving DecidableEq, Repr

/-- Python datetime.date comparison: lexicographic on (year, month, day). -/
def dateLt (a b : Date) : Bool :=
  decide (a.year < b.year) ||
    (decide (a.year = b.year) &&
      (decide (a.month < b.month) ||
        (decide (a.month = b.month) && decide (a.day < b.day))))

/-- Gregorian leap year, as datetime uses it. -/
def isLeap (y : ℤ) : Bool :=
  (decide (y % 4 = 0) && decide (y % 100 ≠ 0)) || decide (y % 400 = 0)

/-- Number of days in a month. -/
def daysInMonth (y : ℤ) (m : ℕ) : ℕ :=
  if m = 2 then (if isLeap y then 29 else 28)
  else if m = 4 ∨ m = 6 ∨ m = 9 ∨ m = 11 then 30
  else 31

/-- date + relativedelta(months=1): step one month forward, clamping the
day-of-month to the target month's length as dateutil does. -/
def addMonth (d : Date) : Date :=
  let y := if d.month = 12 then d.year + 1 else d.year
  let m := if d.month = 12 then 1 else d.month + 1
  ⟨y, m, min d.day (daysInMonth y m)⟩

/-- _rate_date(pdate) (loot.py lines 354-363): the most recent May 1 or
November 1 at or before the date, falling back to the previous November
for January through April. -/
def rateDate (d : Date) : Date :=
  if d.month < 5 then ⟨d.year - 1, 11, 1⟩
  else if d.month < 11 then ⟨d.year, 5, 1⟩
  else ⟨d.year, 11, 1⟩

/-- IBND[rdate]: dictionary lookup of a (fixed rate, floating rate) pair
by rate-period start date; a missing key raises KeyError in Python. -/
def lookupRate (tbl : List (Date × ℚ × ℚ)) (d : Date) : Option (ℚ × ℚ) :=
  match tbl with
  | [] => none
  | e :: rest => if e.1 = d then some e.2 else lookupRate rest d

/-- fv(rate, 1, prin) (loot.py lines 103-125 via numpy_financial): one
month of compounding at monthly rate rate/12. -/
def fvOne (rate : ℚ) (v : ℚ) : ℚ := v * (1 + rate / 12)

/-- The I Bond redemption rounding (loot.py lines 348-350): remainder
modulo 4 (Python float modulo with a positive divisor), round down when the
remainder is below 2, up otherwise. -/
def round4 (v : ℚ) : ℚ :=
  let rem := v - 4 * ⌊v / 4⌋
  if rem < 2 then v - rem else v - rem + 4

/-- Months elapsed since year 0, used only to size the fuel of the valuation
loop. -/
def monthIndex (d : Date) : ℤ := 12 * d.year + d.month

/-- Fuel for the ibnd while loop.  Each iteration advances the simulated
date by one calendar month, and the guard date < redate forces the month
index of date to stay at or below that of redate, so the loop runs at most
(monthIndex redate - monthIndex pdate) + 1 times; this fuel strictly
exceeds that bound for every input and the fuel-exhausted branch is dead. -/
def ibndFuel (pdate redate : Date) : ℕ :=
  (monthIndex redate + 1 - monthIndex pdate).toNat + 1

/-- The while loop of ibnd (loot.py lines 322-340).  The trace of accrued
values is kept newest first, so Python's prin[-1] is the head and prin[-4]
is element 3.  Each iteration looks the floating rate up for the current
rate date (KeyError when absent), compounds one month, steps the date one
month, and after every 6th month re-derives the rate date from the stepped
date.  The evaluation date redate is compared as-is: the source line
redate.replace(day=1) discards its result, so no day normalization reaches
this comparison. -/
def ibndLoop (tbl : List (Date × ℚ × ℚ)) (redate : Date) (fixed : ℚ) :
    ℕ → Date → Date → ℕ → List ℚ → Except Err (List ℚ)
  | 0, _, _, _, trace => Except.ok trace
  | fuel + 1, date, rdate, m, trace =>
      if dateLt date redate then
        match lookupRate tbl rdate with
        | none => Except.error Err.keyError
        | some fr =>
            let composite := fixed + 2 * fr.2 + fixed * fr.2
            let trace' := fvOne composite (trace.headD 0) :: trace
            let date' := addMonth date
            if m + 1 > 6 then ibndLoop tbl redate fixed fuel date' (rateDate date') 1 trace'
            else ibndLoop tbl redate fixed fuel date' rdate (m + 1) trace'
      else Except.ok trace

/-- Extraction of the returned value from the finished trace (loot.py lines
342-351): with the early penalty, a trace longer than 60 entries returns
the final value prin[-1], otherwise prin[-4] (an IndexError when the trace
has fewer than 4 entries); without the penalty the final value; then the
round-to-multiple-of-4 adjustment. -/
def ibndExtract (earlyPenalty : Bool) (tr : List ℚ) : Except Err ℚ :=
  if earlyPenalty then
    if tr.length > 60 then Except.ok (round4 (tr.headD 0))
    else
      match tr[3]? with
      | some v => Except.ok (round4 v)
      | none => Except.error Err.indexError
  else Except.ok (round4 (tr.headD 0))

/-- ibnd(pdate, prin, date, early_penalty) (loot.py lines 280-351): value a
US Treasury I bond bought on pdate for prin, at the evaluation date redate.
The fixed rate comes from the purchase date's rate period; the floating
rate is re-read inside the loop.  The rate table is the external
collaborator IBND. -/
def ibnd (tbl : List (Date × ℚ × ℚ)) (pdate : Date) (prin : ℚ) (redate : Date)
    (earlyPenalty : Bool) : Except Err ℚ :=
  match lookupRate tbl (rateDate pdate) with
  | none => Except.error Err.keyError
  | some fr =>
      match ibndLoop tbl redate fr.1 (ibndFuel pdate redate) pdate (rateDate pdate) 1 [prin] with
      | Except.error e => Except.error e
      | Except.ok trace => ibndExtract earlyPenalty trace

/-- The IBND rate table shipped with the repository (loot.py lines 31-32):
May and November 2021, fixed rate 0, floating rates 1.77 and 3.56 percent. -/
def ibndTable : List (Date × ℚ × ℚ) :=
  [(⟨2021, 5, 1⟩, (0, 177/10000)), (⟨2021, 11, 1⟩, (0, 356/10000))]

/-! ### Bracket tax -/

/-- When the income is above every threshold the loop never breaks, reaches
the last bracket and reads past the end of the bracket list. -/
lemma itaxGo_all_lt (tinc : ℚ) :
    ∀ (L : List (ℚ × ℚ)) (tax : ℚ), L ≠ [] → (∀ p ∈ L, p.1 < tinc) →
      itaxGo tinc tax L = Except.error Err.indexError
  | [], _, h, _ => absurd rfl h
  | [_], _, _, _ => rfl
  | (t, r) :: (t', r') :: rest, tax, _, hall => by
      have hy : t' < tinc := hall (t', r') (by simp)
      rw [itaxGo, if_pos hy]
      exact itaxGo_all_lt tinc ((t', r') :: rest) _ (by simp)
        (fun p hp => hall p (List.mem_cons_of_mem _ hp))

/-- The early-exit scan agrees with the piecewise marginal sum as long as a
second bracket exists and the income does not exceed the last threshold. -/
lemma itaxGo_marginal (tinc : ℚ) :
    ∀ (L : List (ℚ × ℚ)) (tax : ℚ), 2 ≤ L.length →
      tinc ≤ (L.getLastD (0, 0)).1 →
      itaxGo tinc tax L = Except.ok (round2 (tax + marginalTaxSpec tinc L))
  | [], _, hlen, _ => by simp at hlen
  | [_], _, hlen, _ => by simp at hlen
  | (t, r) :: (t', r') :: rest, tax, _, hle => by
      by_cases hb : tinc ≤ t'
      · rw [itaxGo, if_neg (not_lt.mpr hb), marginalTaxSpec, if_pos hb]
      · have hb' : t' < tinc := not_le.mp hb
        rw [itaxGo, if_pos hb', marginalTaxSpec, if_neg hb]
        cases rest with
        | nil =>
            exact absurd hle (by simpa using hb')
        | cons c rest' =>
            rw [itaxGo_marginal tinc ((t', r') :: c :: rest') (tax + (t' - t) * r)
              (by simp) (by simpa using hle)]
            ring_nf

/-- C1: itax does not compute a tax for income strictly above the table's
highest threshold; the loop reads brackets[n+1] at the last bracket and
raises IndexError instead of letting the final bracket absorb the
remaining income.  Evaluated at the failing input: the two lowest 2021
federal brackets and an income of 30000 above their top threshold 19900. -/
theorem itax_above_top_threshold_index_error :
    itax 30000 [(0, 1/10), (19900, 3/25)] = Except.error Err.indexError :=
  itaxGo_all_lt 30000 [(0, 1/10), (19900, 3/25)] 0 (by simp) (by norm_num)

/-- C8 counterexample: on an empty bracket table, itax returns the numeric
result 0 instead of failing with a typed InvalidTable error. -/
theorem itax_empty_table_returns_zero : itax 100 [] = Except.ok 0 := by
  norm_num [itax, itaxGo, round2, rhe]

/-- C8 (amended): itax performs no input validation.  An empty table makes
the loop body run zero times, returning round(0, 2) = 0; a negative income
against a table whose second threshold is positive is not rejected but
taxed at the first bracket's rate, yielding a negative tax.  No typed
InvalidTable or InvalidInput failure exists in the code. -/
theorem itax_no_validation (tinc t1 r0 r1 : ℚ) (rest : List (ℚ × ℚ))
    (hneg : tinc < 0) (ht : 0 < t1) :
    itax tinc [] = Except.ok 0 ∧
    itax tinc ((0, r0) :: (t1, r1) :: rest) = Except.ok (round2 (tinc * r0)) := by
  constructor
  · norm_num [itax, itaxGo, round2, rhe]
  · rw [itax, itaxGo, if_neg (not_lt.mpr (le_of_lt (lt_trans hneg ht)))]
    ring_nf

/-- C8 witness: the amended behavior at income -100 against the two lowest
2021 federal brackets. -/
theorem itax_no_validation_witness :
    (-100 : ℚ) < 0 ∧ (0 : ℚ) < 19900 ∧
    itax (-100) [] = Except.ok 0 ∧
    itax (-100) [(0, 1/10), (19900, 3/25)] = Except.ok (round2 (-100 * (1/10))) := by
  refine ⟨by norm_num, by norm_num, ?_⟩
  have h := itax_no_validation (-100) 19900 (1/10) (3/25) [] (by norm_num) (by norm_num)
  exact ⟨h.1, h.2⟩

/-- C10 counterexample: a single-bracket table satisfies the table
invariant (non-empty, thresholds increasing from 0) and an income of 0
does not exceed its highest threshold 0, yet itax raises IndexError
instead of returning the piecewise marginal sum (which is 0 here). -/
theorem itax_single_bracket_counterexample :
    itax 0 [((0 : ℚ), (1 : ℚ)/10)] = Except.error Err.indexError ∧
    itax 0 [((0 : ℚ), (1 : ℚ)/10)]
      ≠ Except.ok (round2 (marginalTaxSpec 0 [((0 : ℚ), (1 : ℚ)/10)])) := by
  refine ⟨by norm_num [itax, itaxGo], ?_⟩
  intro h
  rw [itax, itaxGo] at h
  exact Except.noConfusion h

/-- C10 (amended): for every bracket table with at least two brackets whose
thresholds are strictly increasing, and every taxable income not exceeding
the table's highest (last) threshold, itax returns the piecewise marginal
sum rounded to 2 decimals; in particular with the table
(0, 0.10), (19900, 0.12), (81050, 0.22) an income of 30000 yields 3202.
With a single-bracket table the scan always reads a nonexistent next
threshold and fails with an index error. -/
theorem itax_eq_marginal_sum (tinc : ℚ) (table : List (ℚ × ℚ))
    (hlen : 2 ≤ table.length)
    (_hmono : table.Chain' fun a b => a.1 < b.1)
    (hle : tinc ≤ (table.getLastD (0, 0)).1) :
    itax tinc table = Except.ok (round2 (marginalTaxSpec tinc table)) ∧
    itax 30000 [(0, 1/10), (19900, 3/25), (81050, 11/50)] = Except.ok 3202 := by
  constructor
  · rw [itax, itaxGo_marginal tinc table 0 hlen hle, zero_add]
  · norm_num [itax, itaxGo, round2, rhe]

/-- C10 witness: the amended statement at the example input, with the table
invariant discharged for the three lowest 2021 federal brackets. -/
theorem itax_eq_marginal_sum_witness :
    2 ≤ ([((0 : ℚ), (1 : ℚ)/10), (19900, 3/25), (81050, 11/50)]).length ∧
    ([((0 : ℚ), (1 : ℚ)/10), (19900, 3/25), (81050, 11/50)]).Chain'
      (fun a b => a.1 < b.1) ∧
    (30000 : ℚ) ≤ (([((0 : ℚ), (1 : ℚ)/10), (19900, 3/25), (81050, 11/50)]).getLastD (0, 0)).1 ∧
    itax 30000 [(0, 1/10), (19900, 3/25), (81050, 11/50)]
      = Except.ok (round2 (marginalTaxSpec 30000 [(0, 1/10), (19900, 3/25), (81050, 11/50)])) := by
  refine ⟨by norm_num, ?_, by norm_num [List.getLastD], ?_⟩
  · simp only [List.chain'_cons, List.chain'_singleton, and_true]
    norm_num
  · exact (itax_eq_marginal_sum 30000 _ (by norm_num)
      (by simp only [List.chain'_cons, List.chain'_singleton, and_true]; norm_num)
      (by norm_num [List.getLastD])).1

/-! ### Amortization -/

/-- One step of the balance recurrence is exactly paying the principal
portion: the two numpy_financial views of the balance agree. -/
lemma bal_succ_eq_sub_ppmt (rate : ℚ) (nper : ℕ) (prin : ℚ) (k : ℕ) :
    bal rate nper prin (k + 1) = bal rate nper prin k - ppmtRaw rate nper prin (k + 1) := by
  simp only [bal, ppmtRaw, ipmtRaw, Nat.add_sub_cancel]
  ring

/-- Telescoping: the running sum of full-precision principal portions is
the principal minus the current balance. -/
lemma sum_ppmtRaw (rate : ℚ) (nper : ℕ) (prin : ℚ) :
    ∀ k : ℕ, ((List.range k).map fun j => ppmtRaw rate nper prin (j + 1)).sum
      = prin - bal rate nper prin k := by
  intro k
  induction k with
  | zero => simp [bal]
  | succ k ih =>
      rw [List.range_succ, List.map_append, List.sum_append, ih,
        bal_succ_eq_sub_ppmt]
      simp
      ring

/-- The loan is exactly paid off after the last period: the full-precision
final balance is 0. -/
lemma bal_final (rate : ℚ) (nper : ℕ) (prin : ℚ) (hrate : 0 ≤ rate) (hn : 0 < nper) :
    bal rate nper prin nper = 0 := by
  by_cases hr : rate / 12 = 0
  · have haux : ∀ k : ℕ, bal rate nper prin k = prin - k * (prin / nper) := by
      intro k
      induction k with
      | zero => simp [bal]
      | succ k ih =>
          rw [bal, ih, pmt, if_pos hr, hr]
          push_cast
          ring
    rw [haux nper]
    have hn' : (nper : ℚ) ≠ 0 := Nat.cast_ne_zero.mpr hn.ne'
    field_simp
  · have hrpos : 0 < rate / 12 := lt_of_le_of_ne (by positivity) (Ne.symm hr)
    set r := rate / 12 with hrdef
    set q := 1 + r with hqdef
    have hq1 : 1 < q := by rw [hqdef]; linarith
    have hqn : 1 < q ^ nper := one_lt_pow₀ hq1 hn.ne'
    have hden : q ^ nper - 1 ≠ 0 := by linarith
    have hP : pmt rate nper prin * (q ^ nper - 1) = prin * r * q ^ nper := by
      rw [pmt, if_neg hr]
      rw [div_mul_cancel₀]
      exact hden
    have haux : ∀ k : ℕ, bal rate nper prin k * (q ^ nper - 1)
        = prin * (q ^ nper - q ^ k) := by
      intro k
      induction k with
      | zero => rw [show bal rate nper prin 0 = prin from rfl, pow_zero]
      | succ k ih =>
          rw [bal]
          have : (bal rate nper prin k * (1 + r) - pmt rate nper prin) * (q ^ nper - 1)
              = (1 + r) * (bal rate nper prin k * (q ^ nper - 1))
                - pmt rate nper prin * (q ^ nper - 1) := by ring
          rw [this, ih, hP]
          rw [pow_succ]
          ring
    have h0 : bal rate nper prin nper * (q ^ nper - 1) = 0 := by
      rw [haux nper]; ring
    exact (mul_eq_zero.mp h0).resolve_right hden

/-- Rounding a rational to the nearest integer, half to even, moves it by
at most one half. -/
lemma abs_rhe_sub (y : ℚ) : |(rhe y : ℚ) - y| ≤ 1/2 := by
  have h1 : ((⌊y⌋ : ℤ) : ℚ) ≤ y := Int.floor_le y
  have h2 : y < (⌊y⌋ : ℤ) + 1 := Int.lt_floor_add_one y
  rw [rhe]
  split_ifs with hf hg he <;>
    · rw [abs_le]
      constructor <;> push_cast <;> linarith

/-- Rounding to 2 decimal places moves a rational by at most 1/200. -/
lemma abs_round2_sub (x : ℚ) : |round2 x - x| ≤ 1/200 := by
  have h := abs_rhe_sub (100 * x)
  rw [round2]
  have : (rhe (100 * x) : ℚ) / 100 - x = ((rhe (100 * x) : ℚ) - 100 * x) / 100 := by
    ring
  rw [this, abs_div]
  rw [show |(100 : ℚ)| = 100 by norm_num]
  linarith

/-- Rounding each entry of a list to 2 decimal places moves the sum by at
most length/200. -/
lemma abs_sum_map_round2_sub (l : List ℚ) :
    |(l.map round2).sum - l.sum| ≤ l.length * (1/200) := by
  induction l with
  | nil => simp
  | cons x xs ih =>
      have h1 := abs_round2_sub x
      calc |((x :: xs).map round2).sum - (x :: xs).sum|
          = |(round2 x - x) + ((xs.map round2).sum - xs.sum)| := by
            simp only [List.map_cons, List.sum_cons]
            ring_nf
        _ ≤ |round2 x - x| + |(xs.map round2).sum - xs.sum| := abs_add _ _
        _ ≤ 1/200 + xs.length * (1/200) := add_le_add h1 ih
        _ = (x :: xs).length * (1/200) := by
            simp only [List.length_cons]
            push_cast
            ring

/-- C5: schedule invariants of ldf.  The rounded Principal column sums to
the principal within the claimed tolerance of 0.01 per period; at full
precision (the code rounds once at the end, after building the Balance
column from the unrounded Principal column) the ending balance after k
periods is exactly the principal minus the running sum of principal
portions; and the final entry of the rounded Balance column is within the
tolerance of 0 (it is in fact exactly 0). -/
theorem ldf_schedule_invariants (rate : ℚ) (nper : ℕ) (prin : ℚ)
    (hrate : 0 ≤ rate) (hn : 0 < nper) (_hprin : 0 < prin) :
    |(principalCol rate nper prin).sum - prin| ≤ (nper : ℚ) / 100 ∧
    (∀ k : ℕ, prin - ((List.range k).map fun j => ppmtRaw rate nper prin (j + 1)).sum
      = bal rate nper prin k) ∧
    |(balanceCol rate nper prin).getD (nper - 1) 0| ≤ (nper : ℚ) / 100 := by
  have hsum : (principalColRaw rate nper prin).sum = prin := by
    rw [principalColRaw, sum_ppmtRaw, bal_final rate nper prin hrate hn, sub_zero]
  refine ⟨?_, ?_, ?_⟩
  · have h := abs_sum_map_round2_sub (principalColRaw rate nper prin)
    rw [hsum] at h
    have hlen : ((principalColRaw rate nper prin).length : ℚ) = nper := by
      simp [principalColRaw]
    rw [hlen] at h
    calc |(principalCol rate nper prin).sum - prin| ≤ (nper : ℚ) * (1/200) := h
      _ ≤ (nper : ℚ) / 100 := by
          have : (0 : ℚ) ≤ (nper : ℚ) := Nat.cast_nonneg nper
          linarith
  · intro k
    rw [sum_ppmtRaw]
    ring
  · have hidx : nper - 1 < nper := Nat.sub_lt hn Nat.one_pos
    have hget : (balanceCol rate nper prin).getD (nper - 1) 0
        = round2 (prin - ((List.range (nper - 1 + 1)).map
            fun j => ppmtRaw rate nper prin (j + 1)).sum) := by
      rw [balanceCol, List.getD_eq_getElem?_getD, List.getElem?_map,
        List.getElem?_range hidx]
      rfl
    rw [Nat.sub_add_cancel hn] at hget
    rw [hget, sum_ppmtRaw, bal_final rate nper prin hrate hn]
    have : prin - (prin - 0) = 0 := by ring
    rw [this]
    have hz : round2 0 = 0 := by norm_num [round2, rhe]
    rw [hz, abs_zero]
    positivity

/-- C5 witness: the invariants at rate 0, a 1-month term and principal 100. -/
theorem ldf_schedule_invariants_witness :
    (0 : ℚ) ≤ 0 ∧ 0 < 1 ∧ (0 : ℚ) < 100 ∧
    (|(principalCol 0 1 100).sum - 100| ≤ ((1 : ℕ) : ℚ) / 100 ∧
      (∀ k : ℕ, 100 - ((List.range k).map fun j => ppmtRaw 0 1 100 (j + 1)).sum
        = bal 0 1 100 k) ∧
      |(balanceCol 0 1 100).getD (1 - 1) 0| ≤ ((1 : ℕ) : ℚ) / 100) :=
  ⟨by norm_num, by norm_num, by norm_num,
    ldf_schedule_invariants 0 1 100 (by norm_num) (by norm_num) (by norm_num)⟩

/-- Principals at or above the 750000 cap all collapse to the cap before
the schedule is regenerated. -/
lemma dedmint_cap_eq (p : ℚ) (hp : 750000 ≤ p) :
    (if p > 750000 then (750000 : ℚ) else p) = 750000 := by
  split_ifs with h
  · rfl
  · linarith [not_lt.mp h]

/-- C6: dedmint computes every yearly interest sum from a schedule
regenerated with the principal capped at 750000: the output at any
principal equals the output at min(principal, 750000), and any two
principals at or above the cap (in particular any principal above the cap
versus exactly 750000) give identical output for fixed rate and term. -/
theorem dedmint_capped (rate : ℚ) (nper : ℕ) (p1 p2 : ℚ)
    (h1 : 750000 ≤ p1) (h2 : 750000 ≤ p2) :
    dedmint rate nper p1 = dedmint rate nper p2 ∧
    ∀ p : ℚ, dedmint rate nper p = dedmint rate nper (min p 750000) := by
  constructor
  · rw [dedmint, dedmint, dedmint_cap_eq p1 h1, dedmint_cap_eq p2 h2]
  · intro p
    rw [dedmint, dedmint]
    rcases le_total p 750000 with h | h
    · rw [min_eq_left h]
    · rw [min_eq_right h, dedmint_cap_eq p h]
      rw [if_neg (lt_irrefl 750000)]

/-- C6 witness: a principal above the cap gives the same yearly interest
sums as the cap itself. -/
theorem dedmint_capped_witness :
    (750000 : ℚ) ≤ 750000 ∧ (750000 : ℚ) ≤ 800000 ∧
    dedmint (3/100) 12 750000 = dedmint (3/100) 12 800000 :=
  ⟨by norm_num, by norm_num,
    (dedmint_capped (3/100) 12 750000 800000 (by norm_num) (by norm_num)).1⟩

/-! ### I Bond valuation -/

/-- Date comparison is asymmetric. -/
lemma dateLt_asymm (a b : Date) (h : dateLt a b = true) : dateLt b a = false := by
  cases hba : dateLt b a with
  | false => rfl
  | true =>
      exfalso
      simp only [dateLt, Bool.or_eq_true, Bool.and_eq_true, decide_eq_true_eq] at h hba
      omega

/-- Once the rate lookup and the loop result are fixed, ibnd is the
extraction step applied to the finished trace. -/
lemma ibnd_eq_extract (tbl : List (Date × ℚ × ℚ)) (pdate redate : Date) (prin : ℚ)
    (ep : Bool) (fr : ℚ × ℚ) (t : List ℚ)
    (hlk : lookupRate tbl (rateDate pdate) = some fr)
    (hloop : ibndLoop tbl redate fr.1 (ibndFuel pdate redate) pdate (rateDate pdate) 1 [prin]
      = Except.ok t) :
    ibnd tbl pdate prin redate ep = ibndExtract ep t := by
  simp only [ibnd, hlk, hloop]

/-- C2: the day-of-month of the evaluation date is not normalized away:
the source line redate.replace(day=1) discards its result, so two
evaluation dates in the same calendar month (July 2021) produce different
numbers of compounding steps and different redemption values for the same
bond (purchased 2021-05-15 for 10000). -/
theorem ibnd_day_of_month_changes_value :
    ibnd ibndTable ⟨2021, 5, 15⟩ 10000 ⟨2021, 7, 10⟩ false = Except.ok 10060 ∧
    ibnd ibndTable ⟨2021, 5, 15⟩ 10000 ⟨2021, 7, 20⟩ false = Except.ok 10088 := by
  constructor <;>
    norm_num [ibnd, ibndLoop, ibndExtract, ibndFuel, monthIndex, lookupRate, rateDate,
      addMonth, daysInMonth, isLeap, dateLt, fvOne, round4, ibndTable]

/-- C3: with the early penalty requested, a trace of up to 60 recorded
months (holding period below 60 whole months) redeems at the value from 3
months before the evaluation month (the trace is newest first, so entry 3),
while 60 or more elapsed months redeem at the final trace value; both after
the multiple-of-4 rounding adjustment. -/
theorem ibnd_early_penalty_lookback (tbl : List (Date × ℚ × ℚ)) (pdate redate : Date)
    (prin : ℚ) (fr : ℚ × ℚ) (t : List ℚ)
    (hlk : lookupRate tbl (rateDate pdate) = some fr)
    (hloop : ibndLoop tbl redate fr.1 (ibndFuel pdate redate) pdate (rateDate pdate) 1 [prin]
      = Except.ok t) :
    (3 ≤ t.length - 1 → t.length - 1 < 60 →
      ibnd tbl pdate prin redate true = Except.ok (round4 (t.getD 3 0))) ∧
    (60 ≤ t.length - 1 →
      ibnd tbl pdate prin redate true = Except.ok (round4 (t.headD 0))) := by
  rw [ibnd_eq_extract tbl pdate redate prin true fr t hlk hloop]
  constructor
  · intro h3 h60
    have hlen : ¬ t.length > 60 := by omega
    have hidx : 3 < t.length := by omega
    rw [ibndExtract, if_pos rfl, if_neg hlen, List.getElem?_eq_getElem hidx]
    rw [List.getD_eq_getElem?_getD, List.getElem?_eq_getElem hidx]
    rfl
  · intro h60
    have hlen : t.length > 60 := by omega
    rw [ibndExtract, if_pos rfl, if_pos hlen]

/-- C3 witness: a bond bought 2021-06-01 for 100 and valued on 2021-10-01
(4 elapsed months) redeems at the trace value from 3 months back. -/
theorem ibnd_early_penalty_lookback_witness :
    lookupRate ibndTable (rateDate ⟨2021, 6, 1⟩) = some (0, 177/10000) ∧
    ibndLoop ibndTable ⟨2021, 10, 1⟩ 0 (ibndFuel ⟨2021, 6, 1⟩ ⟨2021, 10, 1⟩) ⟨2021, 6, 1⟩
      (rateDate ⟨2021, 6, 1⟩) 1 [100]
      = Except.ok [161896370842437361/1600000000000000, 8071009065379/80000000000,
          402363481/4000000, 20059/200, 100] ∧
    ibnd ibndTable ⟨2021, 6, 1⟩ 100 ⟨2021, 10, 1⟩ true
      = Except.ok (round4 (([(161896370842437361 : ℚ)/1600000000000000,
          8071009065379/80000000000, 402363481/4000000, 20059/200, 100]).getD 3 0)) := by
  have h1 : lookupRate ibndTable (rateDate ⟨2021, 6, 1⟩) = some (0, 177/10000) := by
    norm_num [lookupRate, rateDate, ibndTable]
  have h2 : ibndLoop ibndTable ⟨2021, 10, 1⟩ 0 (ibndFuel ⟨2021, 6, 1⟩ ⟨2021, 10, 1⟩)
      ⟨2021, 6, 1⟩ (rateDate ⟨2021, 6, 1⟩) 1 [100]
      = Except.ok [161896370842437361/1600000000000000, 8071009065379/80000000000,
          402363481/4000000, 20059/200, 100] := by
    norm_num [ibndLoop, ibndFuel, monthIndex, lookupRate, rateDate, addMonth, daysInMonth,
      isLeap, dateLt, fvOne, ibndTable]
  exact ⟨h1, h2,
    (ibnd_early_penalty_lookback ibndTable ⟨2021, 6, 1⟩ ⟨2021, 10, 1⟩ 100 (0, 177/10000)
      _ h1 h2).1 (by norm_num) (by norm_num)⟩

/-- C9 counterexample: a bond held for only 2 months (trace of 3 snapshots)
valued with the early penalty fails with the untyped IndexError from
reading prin[-4], not with a typed InsufficientHistory error. -/
theorem ibnd_short_history_index_error :
    ibnd ibndTable ⟨2021, 6, 1⟩ 100 ⟨2021, 8, 1⟩ true = Except.error Err.indexError := by
  norm_num [ibnd, ibndLoop, ibndExtract, ibndFuel, monthIndex, lookupRate, rateDate,
    addMonth, daysInMonth, isLeap, dateLt, fvOne, round4, ibndTable]

/-- C9 (amended): with at least 4 recorded snapshots the prin[-4] access is
in bounds and the penalty valuation succeeds, but with fewer than 4
snapshots ibnd performs the out-of-range access and fails with IndexError;
no InsufficientHistory guard exists in the code. -/
theorem ibnd_penalty_access_bounds (tbl : List (Date × ℚ × ℚ)) (pdate redate : Date)
    (prin : ℚ) (fr : ℚ × ℚ) (t : List ℚ)
    (hlk : lookupRate tbl (rateDate pdate) = some fr)
    (hloop : ibndLoop tbl redate fr.1 (ibndFuel pdate redate) pdate (rateDate pdate) 1 [prin]
      = Except.ok t) :
    (4 ≤ t.length → t.length ≤ 60 →
      ibnd tbl pdate prin redate true = Except.ok (round4 (t.getD 3 0))) ∧
    (t.length < 4 →
      ibnd tbl pdate prin redate true = Except.error Err.indexError) := by
  rw [ibnd_eq_extract tbl pdate redate prin true fr t hlk hloop]
  constructor
  · intro h4 h60
    have hlen : ¬ t.length > 60 := by omega
    have hidx : 3 < t.length := by omega
    rw [ibndExtract, if_pos rfl, if_neg hlen, List.getElem?_eq_getElem hidx]
    rw [List.getD_eq_getElem?_getD, List.getElem?_eq_getElem hidx]
    rfl
  · intro h4
    have hlen : ¬ t.length > 60 := by omega
    have hnone : t[3]? = none := by
      rw [List.getElem?_eq_none]
      omega
    rw [ibndExtract, if_pos rfl, if_neg hlen, hnone]

/-- C9 witness: a bond bought 2021-07-01 for 200 and valued on 2021-09-01
has a 3-snapshot trace, and the penalty valuation fails with IndexError. -/
theorem ibnd_penalty_access_bounds_witness :
    lookupRate ibndTable (rateDate ⟨2021, 7, 1⟩) = some (0, 177/10000) ∧
    ibndLoop ibndTable ⟨2021, 9, 1⟩ 0 (ibndFuel ⟨2021, 7, 1⟩ ⟨2021, 9, 1⟩) ⟨2021, 7, 1⟩
      (rateDate ⟨2021, 7, 1⟩) 1 [200]
      = Except.ok [402363481/2000000, 20059/100, 200] ∧
    ibnd ibndTable ⟨2021, 7, 1⟩ 200 ⟨2021, 9, 1⟩ true = Except.error Err.indexError := by
  have h1 : lookupRate ibndTable (rateDate ⟨2021, 7, 1⟩) = some (0, 177/10000) := by
    norm_num [lookupRate, rateDate, ibndTable]
  have h2 : ibndLoop ibndTable ⟨2021, 9, 1⟩ 0 (ibndFuel ⟨2021, 7, 1⟩ ⟨2021, 9, 1⟩)
      ⟨2021, 7, 1⟩ (rateDate ⟨2021, 7, 1⟩) 1 [200]
      = Except.ok [402363481/2000000, 20059/100, 200] := by
    norm_num [ibndLoop, ibndFuel, monthIndex, lookupRate, rateDate, addMonth, daysInMonth,
      isLeap, dateLt, fvOne, ibndTable]
  exact ⟨h1, h2,
    (ibnd_penalty_access_bounds ibndTable ⟨2021, 7, 1⟩ ⟨2021, 9, 1⟩ 200 (0, 177/10000)
      _ h1 h2).2 (by norm_num)⟩

/-- C4 counterexample: with the evaluation date strictly before the
purchase date and early_penalty false, ibnd returns a value (the
rounding-adjusted principal) instead of failing with any typed
InvalidDateOrder error. -/
theorem ibnd_inverted_dates_returns_value :
    ibnd ibndTable ⟨2021, 6, 1⟩ 100 ⟨2021, 1, 1⟩ false = Except.ok 100 := by
  norm_num [ibnd, ibndLoop, ibndExtract, ibndFuel, monthIndex, lookupRate, rateDate,
    addMonth, daysInMonth, isLeap, dateLt, fvOne, round4, ibndTable]

/-- C4 (amended): ibnd performs no date-order validation.  When the
evaluation date precedes the purchase date the loop body never runs and
the trace is the single entry [prin]: with early_penalty false the
rounding-adjusted principal is returned as a value, and with the default
early_penalty true the prin[-4] read on the 1-element trace fails with the
untyped IndexError.  No InvalidDateOrder failure exists in the code. -/
theorem ibnd_no_date_order_validation (tbl : List (Date × ℚ × ℚ)) (pdate redate : Date)
    (prin : ℚ) (fr : ℚ × ℚ)
    (hlk : lookupRate tbl (rateDate pdate) = some fr)
    (horder : dateLt redate pdate = true) :
    ibnd tbl pdate prin redate false = Except.ok (round4 prin) ∧
    ibnd tbl pdate prin redate true = Except.error Err.indexError := by
  have hguard : dateLt pdate redate = false := dateLt_asymm redate pdate horder
  have hloop : ibndLoop tbl redate fr.1 (ibndFuel pdate redate) pdate (rateDate pdate) 1 [prin]
      = Except.ok [prin] := by
    rw [ibndFuel, ibndLoop, hguard]
    simp
  constructor
  · rw [ibnd_eq_extract tbl pdate redate prin false fr [prin] hlk hloop, ibndExtract]
    simp
  · rw [ibnd_eq_extract tbl pdate redate prin true fr [prin] hlk hloop, ibndExtract]
    norm_num

/-- C4 witness: the amended behavior for a bond bought 2021-06-01 for 50
and evaluated on 2020-01-01, more than a year before the purchase. -/
theorem ibnd_no_date_order_validation_witness :
    lookupRate ibndTable (rateDate ⟨2021, 6, 1⟩) = some (0, 177/10000) ∧
    dateLt ⟨2020, 1, 1⟩ ⟨2021, 6, 1⟩ = true ∧
    ibnd ibndTable ⟨2021, 6, 1⟩ 50 ⟨2020, 1, 1⟩ false = Except.ok (round4 50) ∧
    ibnd ibndTable ⟨2021, 6, 1⟩ 50 ⟨2020, 1, 1⟩ true = Except.error Err.indexError := by
  have h1 : lookupRate ibndTable (rateDate ⟨2021, 6, 1⟩) = some (0, 177/10000) := by
    norm_num [lookupRate, rateDate, ibndTable]
  have h2 : dateLt ⟨2020, 1, 1⟩ ⟨2021, 6, 1⟩ = true := by decide
  have h := ibnd_no_date_order_validation ibndTable ⟨2021, 6, 1⟩ ⟨2020, 1, 1⟩ 50
    (0, 177/10000) h1 h2
  exact ⟨h1, h2, h.1, h.2⟩

/-- C7: the redemption rounding of ibnd.  round4 maps remainders 0 and 1
modulo 4 down and remainders 2 and 3 up, always returning an integer
multiple of 4; the accrued values 103 and 101 round to 104 and 100; and
every value ibnd successfully returns is a multiple of 4. -/
theorem ibnd_round4_spec :
    (∀ v : ℚ, ∃ k : ℤ, round4 v = 4 * k) ∧
    round4 103 = 104 ∧ round4 101 = 100 ∧
    (∀ (tbl : List (Date × ℚ × ℚ)) (pdate : Date) (prin : ℚ) (redate : Date)
      (ep : Bool) (v : ℚ), ibnd tbl pdate prin redate ep = Except.ok v →
        ∃ k : ℤ, v = 4 * k) := by
  have hmul : ∀ v : ℚ, ∃ k : ℤ, round4 v = 4 * k := by
    intro v
    rw [round4]
    split_ifs with h
    · exact ⟨⌊v/4⌋, by ring⟩
    · exact ⟨⌊v/4⌋ + 1, by push_cast; ring⟩
  have hval : ∀ (ep : Bool) (t : List ℚ) (v : ℚ),
      ibndExtract ep t = Except.ok v → ∃ k : ℤ, v = 4 * k := by
    intro ep t v h
    rw [ibndExtract] at h
    cases ep with
    | false =>
        simp only [Bool.false_eq_true, if_false, Except.ok.injEq] at h
        exact h ▸ hmul (t.headD 0)
    | true =>
        simp only [if_true] at h
        by_cases hlen : t.length > 60
        · rw [if_pos hlen, Except.ok.injEq] at h
          exact h ▸ hmul (t.headD 0)
        · rw [if_neg hlen] at h
          cases hg : t[3]? with
          | none => rw [hg] at h; exact Except.noConfusion h
          | some w =>
              rw [hg, Except.ok.injEq] at h
              exact h ▸ hmul w
  refine ⟨hmul, by norm_num [round4], by norm_num [round4], ?_⟩
  intro tbl pdate prin redate ep v h
  cases hlk : lookupRate tbl (rateDate pdate) with
  | none =>
      rw [show ibnd tbl pdate prin redate ep = Except.error Err.keyError from by
        simp only [ibnd, hlk]] at h
      exact Except.noConfusion h
  | some fr =>
      cases hloop : ibndLoop tbl redate fr.1 (ibndFuel pdate redate) pdate (rateDate pdate)
          1 [prin] with
      | error e =>
          rw [show ibnd tbl pdate prin redate ep = Except.error e from by
            simp only [ibnd, hlk, hloop]] at h
          exact Except.noConfusion h
      | ok t =>
          rw [ibnd_eq_extract tbl pdate redate prin ep fr t hlk hloop] at h
          exact hval ep t v h

/-- C7 witness: a bond whose accrued value is 103 redeems at 104, a
multiple of 4. -/
theorem ibnd_round4_spec_witness :
    ibnd ibndTable ⟨2021, 6, 1⟩ 103 ⟨2021, 1, 1⟩ false = Except.ok 104 ∧
    ∃ k : ℤ, (104 : ℚ) = 4 * k := by
  have h : ibnd ibndTable ⟨2021, 6, 1⟩ 103 ⟨2021, 1, 1⟩ false = Except.ok 104 := by
    norm_num [ibnd, ibndLoop, ibndExtract, ibndFuel, monthIndex, lookupRate, rateDate,
      addMonth, daysInMonth, isLeap, dateLt, fvOne, round4, ibndTable]
  exact ⟨h, ibnd_round4_spec.2.2.2 ibndTable ⟨2021, 6, 1⟩ 103 ⟨2021, 1, 1⟩ false 104 h⟩

end Loot
